import Mathlib

/-!
Verification of the storer core of apisix-seed: the etcd backend adapter
(internal/core/storer/etcd.go) and the generic object store
(internal/core/storer/store.go), shallowly embedded as pure Lean functions.
The backend client is modelled by passing the raw backend response (or a
transport failure) as an argument; the concurrent cache is modelled as an
association list with first-occurrence lookup semantics.
-/

set_option autoImplicit false

namespace ApisixSeed

/-- The directory placeholder sentinel value, DirPlaceholder in etcd.go. -/
def DirPlaceholder : String := "init_dir"

/-- One key-value pair of a backend response (mvccpb.KeyValue, restricted to
the fields the storer reads). -/
structure KV where
  key : String
  value : String
deriving Repr, DecidableEq

/-- An etcd range response: the Count field and the Kvs sequence. -/
structure GetResponse where
  count : Nat
  kvs : List KV
deriving Repr, DecidableEq

/-- Error taxonomy of the backend adapter. The Go code returns untyped
formatted errors; the constructors here record which branch produced the
error (transport failure, zero-result warning, or an index past the end of
the Kvs sequence, which in Go would be a runtime panic). -/
inductive EtcdErr where
  | backend : String → String → String → EtcdErr
  | notFound : String → String → EtcdErr
  | outOfRange : EtcdErr
deriving Repr, DecidableEq

/-- Modelled from the spec: utils.Message (absent from src/), an ordered
sequence of key-value pairs built by appending with Add. -/
abbrev Message := List KV

/-- EtcdV3.Get (etcd.go): transport error wraps to the backend branch, a
zero Count yields the not-found branch, otherwise the value of Kvs[0] is
returned; the out-of-range constructor marks the indexing of an empty Kvs. -/
def EtcdV3.Get (resp : Except String GetResponse) (key : String) :
    Except EtcdErr String :=
  match resp with
  | Except.error e => Except.error (EtcdErr.backend "get" key e)
  | Except.ok r =>
    if r.count = 0 then Except.error (EtcdErr.notFound "get" key)
    else
      match r.kvs with
      | [] => Except.error EtcdErr.outOfRange
      | kv0 :: _ => Except.ok kv0.value

/-- EtcdV3.List (etcd.go): transport error wraps to the backend branch, a
zero Count yields the not-found branch; otherwise, when the FIRST entry
holds the directory placeholder it is dropped, and the remaining entries
are returned in order. -/
def EtcdV3.List (resp : Except String GetResponse) (pfx : String) :
    Except EtcdErr Message :=
  match resp with
  | Except.error e => Except.error (EtcdErr.backend "list" pfx e)
  | Except.ok r =>
    if r.count = 0 then Except.error (EtcdErr.notFound "list" pfx)
    else
      match r.kvs with
      | [] => Except.error EtcdErr.outOfRange
      | kv0 :: rest =>
        Except.ok (if kv0.value = DirPlaceholder then rest else kv0 :: rest)

/-- The whole backend contents, as the sequence of written key-value pairs
(at most one entry per key). -/
abbrev Backend := List KV

/-- An etcd single-key range request against backend contents b: Count and
Kvs hold the entries whose key equals the requested key. -/
def rangeGet (b : Backend) (key : String) : GetResponse :=
  let kvs := b.filter (fun kv => kv.key == key)
  GetResponse.mk kvs.length kvs

/-- An etcd range request with the WithPrefix option: Count and Kvs hold
the entries whose key starts with the requested prefix. -/
def rangePfx (b : Backend) (pfx : String) : GetResponse :=
  let kvs := b.filter (fun kv => pfx.isPrefixOf kv.key)
  GetResponse.mk kvs.length kvs

/-- An etcd put is an unconditional upsert of one key. -/
def Backend.put : Backend → String → String → Backend
  | [], k, v => [KV.mk k v]
  | kv :: t, k, v =>
    if kv.key = k then KV.mk k v :: t else kv :: Backend.put t k v

/-- EtcdV3.Create (etcd.go): a put bounded by the timeout; a transport
failure wraps to the backend branch (message context "put"), success
leaves the upserted backend. -/
def EtcdV3.Create (fail : Option String) (b : Backend) (key value : String) :
    Except EtcdErr Unit × Backend :=
  match fail with
  | some e => (Except.error (EtcdErr.backend "put" key e), b)
  | none => (Except.ok (), Backend.put b key value)

/-- EtcdV3.Update (etcd.go): the same unconditional put as Create; a
transport failure wraps to the backend branch (message context "update"). -/
def EtcdV3.Update (fail : Option String) (b : Backend) (key value : String) :
    Except EtcdErr Unit × Backend :=
  match fail with
  | some e => (Except.error (EtcdErr.backend "update" key e), b)
  | none => (Except.ok (), Backend.put b key value)

/-- The event-type tag utils.EventAdd. -/
def EventAdd : String := "add"

/-- The event-type tag utils.EventDelete. -/
def EventDelete : String := "delete"

/-- An etcd watch notification type (clientv3.EventTypePut or Delete). -/
inductive EtcdEventType where
  | put
  | delete
deriving Repr, DecidableEq

/-- One raw etcd watch notification: its type and its key-value pair. -/
structure EtcdEvent where
  typ : EtcdEventType
  kv : KV
deriving Repr, DecidableEq

/-- One raw etcd watch delivery batch: the Canceled flag and the events. -/
structure WatchResponse where
  canceled : Bool
  events : List EtcdEvent
deriving Repr, DecidableEq

/-- One translated change item inside a StoreEvent. -/
structure StoreEventItem where
  event : String
  key : String
  value : String
deriving Repr, DecidableEq

/-- Modelled from the spec: the Change Event value type (StoreEvent, absent
from src/): a cancellation flag plus an ordered sequence of change items. -/
structure StoreEvent where
  canceled : Bool
  items : List StoreEventItem
deriving Repr, DecidableEq

/-- Modelled from the spec: NewStoreEvent (absent from src/) builds an
event with no items from the cancellation flag. -/
def NewStoreEvent (canceled : Bool) : StoreEvent :=
  StoreEvent.mk canceled []

/-- Modelled from the spec: StoreEvent.Add (absent from src/) appends one
item, failing on a malformed one (an operation that is neither the add tag
nor the delete tag). -/
def StoreEvent.Add (e : StoreEvent) (typ key value : String) :
    Except String StoreEvent :=
  if typ = EventAdd ∨ typ = EventDelete then
    Except.ok (StoreEvent.mk e.canceled (e.items ++ [StoreEventItem.mk typ key value]))
  else
    Except.error "unknown event type"

/-- One iteration of the inner loop of EtcdV3.Watch (etcd.go): an item
whose value is the directory placeholder is skipped; otherwise the etcd
event type is classified as add or delete and the item is accumulated,
with a failing Add logged and skipped. -/
def EtcdV3.watchStep (acc : StoreEvent) (ev : EtcdEvent) : StoreEvent :=
  if ev.kv.value = DirPlaceholder then acc
  else
    let typ := match ev.typ with
      | EtcdEventType.put => EventAdd
      | EtcdEventType.delete => EventDelete
    match acc.Add typ ev.kv.key ev.kv.value with
    | Except.ok e => e
    | Except.error _ => acc

/-- The translation of one raw watch delivery batch into the StoreEvent
sent on the channel by EtcdV3.Watch (etcd.go). -/
def EtcdV3.WatchBatch (w : WatchResponse) : StoreEvent :=
  w.events.foldl EtcdV3.watchStep (NewStoreEvent w.canceled)

/-- The concurrent cache of a GenericStore (a sync.Map keyed by backend
path), modelled as an association list with first-occurrence lookup. -/
abbrev Cache (α : Type) := List (String × α)

/-- Lookup of a key in the cache (sync.Map Load). -/
def Cache.load {α : Type} : Cache α → String → Option α
  | [], _ => none
  | p :: t, k => if p.1 = k then some p.2 else Cache.load t k

/-- Writing a key in the cache (sync.Map Store): the binding of the key is
replaced when present, appended otherwise. -/
def Cache.store {α : Type} : Cache α → String → α → Cache α
  | [], k, v => [(k, v)]
  | p :: t, k, v => if p.1 = k then (k, v) :: t else p :: Cache.store t k v

/-- Removing a key from the cache (the deletion half of LoadAndDelete). -/
def Cache.delete {α : Type} : Cache α → String → Cache α
  | [], _ => []
  | p :: t, k => if p.1 = k then Cache.delete t k else p :: Cache.delete t k

/-- GenericStore.Store (store.go): a LoadOrStore followed, when the key
already existed, by an overwriting Store; returns the loaded value (the
given one when absent) and the existed flag, together with the new cache. -/
def GenericStore.Store {α : Type} (c : Cache α) (key : String) (objPtr : α) :
    (α × Bool) × Cache α :=
  match Cache.load c key with
  | some oldObj => ((oldObj, true), Cache.store c key objPtr)
  | none => ((objPtr, false), Cache.store c key objPtr)

/-- GenericStore.Delete (store.go): a LoadAndDelete, returning the removed
value and the existed flag, together with the new cache. -/
def GenericStore.Delete {α : Type} (c : Cache α) (key : String) :
    (Option α × Bool) × Cache α :=
  match Cache.load c key with
  | some v => ((some v, true), Cache.delete c key)
  | none => ((none, false), c)

/-- Modelled from the spec: entity.Node (absent from src/), a backend
endpoint descriptor with address, port and weight fields. -/
structure Node where
  host : String
  port : Nat
  weight : Nat
deriving Repr, DecidableEq

/-- Modelled from the spec: a type-erased Domain Object (the entity
package is absent from src/). The boolean fields record which optional
capabilities the underlying type implements (entity.NodesSetter,
entity.BaseInfoSetter, entity.Aller); the id field is the BaseInfo ID and
the updated flag records that the Updating bookkeeping hook has run. -/
structure Obj where
  nodesSetter : Bool
  nodes : List Node
  baseInfoSetter : Bool
  id : String
  updated : Bool
  aller : Bool
deriving Repr, DecidableEq

/-- The SetNodes capability call: the node list is replaced. -/
def Obj.SetNodes (o : Obj) (ns : List Node) : Obj :=
  { o with nodes := ns }

/-- The Updating bookkeeping hook of the BaseInfo. -/
def Obj.markUpdated (o : Obj) : Obj :=
  { o with updated := true }

/-- The mutation UpdateNodes performs on the cached object: SetNodes, then
the Updating hook when the BaseInfoSetter capability is present. -/
def Obj.afterSetNodes (o : Obj) (ns : List Node) : Obj :=
  let o1 := o.SetNodes ns
  if o1.baseInfoSetter then o1.markUpdated else o1

/-- Encoding inside UpdateNodes (store.go): entity.Marshal when the object
implements entity.Aller, plain json.Marshal otherwise; both are abstract
fallible encoders here. -/
def encodeObj (em jm : Obj → Except String String) (o : Obj) :
    Except String String :=
  if o.aller then em o else jm o

/-- Error taxonomy of GenericStore.UpdateNodes, one constructor per
return branch of the Go function. -/
inductive UpdateNodesErr where
  | keyRequired : UpdateNodesErr
  | notFound : String → UpdateNodesErr
  | capability : UpdateNodesErr
  | marshalFailed : String → UpdateNodesErr
  | backendFailed : String → UpdateNodesErr
deriving Repr, DecidableEq

/-- Outcome of UpdateNodes: the returned error or success, the cache after
the call (the cached object is mutated in place through its pointer), and
the sequence of Update calls the backend received. -/
structure UpdateNodesOut where
  result : Except UpdateNodesErr Unit
  cache : Cache Obj
  updateCalls : List (String × String)
deriving Repr

/-- GenericStore.UpdateNodes (store.go): rejects an empty key; looks the
key up in the cache, failing when absent; requires the NodesSetter
capability, failing with no mutation otherwise; mutates the cached object
(SetNodes, then the Updating hook when BaseInfoSetter is present);
encodes it and pushes one backend Update, propagating a marshal or
backend error without rolling the cache back. -/
def GenericStore.UpdateNodes (em jm : Obj → Except String String)
    (upd : String → String → Except String Unit)
    (c : Cache Obj) (key : String) (nodes : List Node) : UpdateNodesOut :=
  if key = "" then UpdateNodesOut.mk (Except.error UpdateNodesErr.keyRequired) c []
  else
    match Cache.load c key with
    | none => UpdateNodesOut.mk (Except.error (UpdateNodesErr.notFound key)) c []
    | some storedObj =>
      if storedObj.nodesSetter then
        let o2 := storedObj.afterSetNodes nodes
        let c1 := Cache.store c key o2
        match encodeObj em jm o2 with
        | Except.error e =>
          UpdateNodesOut.mk (Except.error (UpdateNodesErr.marshalFailed e)) c1 []
        | Except.ok bs =>
          match upd key bs with
          | Except.error e =>
            UpdateNodesOut.mk (Except.error (UpdateNodesErr.backendFailed e)) c1 [(key, bs)]
          | Except.ok _ =>
            UpdateNodesOut.mk (Except.ok ()) c1 [(key, bs)]
      else
        UpdateNodesOut.mk (Except.error UpdateNodesErr.capability) c []

/-- The filter acceptance test of GenericStore.List (store.go): a nil
filter accepts everything. -/
def acceptFilter {α : Type} (filt : Option (α → Bool)) (o : α) : Bool :=
  match filt with
  | none => true
  | some f => f o

/-- The loop of GenericStore.List (store.go): each entry is decoded in
order; a decode failure returns the error at once; an accepted object is
stored in the cache under its backend path and appended to the result. -/
def GenericStore.listLoop {α : Type} (decode : String → String → Except String α)
    (filt : Option (α → Bool)) :
    Message → Cache α → List α → Except String (List α) × Cache α
  | [], c, acc => (Except.ok acc, c)
  | kv :: rest, c, acc =>
    match decode kv.value kv.key with
    | Except.error e => (Except.error e, c)
    | Except.ok objPtr =>
      if acceptFilter filt objPtr then
        GenericStore.listLoop decode filt rest
          (GenericStore.Store c kv.key objPtr).2 (acc ++ [objPtr])
      else
        GenericStore.listLoop decode filt rest c acc

/-- GenericStore.List (store.go): a backend listing error is returned as
is; otherwise the entries run through the decode-filter-store loop. The
decode function abstracts StringToObjPtr applied to value and key. -/
def GenericStore.List {α : Type} (decode : String → String → Except String α)
    (filt : Option (α → Bool)) (listed : Except String Message) (c : Cache α) :
    Except String (List α) × Cache α :=
  match listed with
  | Except.error e => (Except.error e, c)
  | Except.ok ret => GenericStore.listLoop decode filt ret c []

/-- Splitting a character sequence at every slash, accumulating the
current segment in reverse. -/
def splitSlashAux : List Char → List Char → List (List Char)
  | [], cur => [cur.reverse]
  | ch :: t, cur =>
    if ch = '/' then cur.reverse :: splitSlashAux t []
    else splitSlashAux t (ch :: cur)

/-- The meaningful (non-empty) slash-separated segments of a path. -/
def pathSegs (s : String) : List String :=
  ((splitSlashAux s.data []).map (fun cs => String.mk cs)).filter
    (fun x => x != "")

/-- Modelled from the spec: the Key Path Utility FromatKey (utils package,
absent from src/): the configured prefix is stripped first, the path is
split into meaningful (non-empty) segments, the first segment is the
resource type and the last segment is the identifier candidate, empty when
fewer than two meaningful segments remain. -/
def FromatKey (key pfx : String) : String × String × String :=
  let trimmed :=
    if pfx.data.isPrefixOf key.data then String.mk (key.data.drop pfx.data.length)
    else key
  match pathSegs trimmed with
  | [] => ("", pfx, "")
  | [t] => (t, pfx, "")
  | t :: rest => (t, pfx, rest.getLastD "")

/-- The last meaningful (non-empty) segment of a path. -/
def lastSegment (path : String) : String :=
  (pathSegs path).getLastD ""

/-- GenericStore.StringToObjPtr (store.go): decode the raw bytes through
the abstract unmarshaller (entity.Unmarshal for an Aller type, json
otherwise); on failure return a decode error naming the key; on success,
when the object has the BaseInfoSetter capability and an empty ID, assign
the identifier FromatKey derives from the key, but only when non-empty. -/
def GenericStore.StringToObjPtr (unmarshal : String → Except String Obj)
    (pfx : String) (str key : String) : Except String Obj :=
  match unmarshal str with
  | Except.error e =>
    Except.error ("unmarshal failed, related key: " ++ key ++ ", cause: " ++ e)
  | Except.ok ret =>
    if ret.baseInfoSetter then
      if ret.id = "" then
        let id := (FromatKey key pfx).2.2
        if id != "" then Except.ok { ret with id := id } else Except.ok ret
      else Except.ok ret
    else Except.ok ret

/-! Helper lemmas about the cache. -/

theorem Cache.load_store_self {α : Type} (c : Cache α) (k : String) (v : α) :
    Cache.load (Cache.store c k v) k = some v := by
  induction c with
  | nil => simp [Cache.store, Cache.load]
  | cons p t ih =>
    by_cases h : p.1 = k
    · simp [Cache.store, Cache.load, h]
    · simp [Cache.store, Cache.load, h, ih]

theorem Cache.load_delete_self {α : Type} (c : Cache α) (k : String) :
    Cache.load (Cache.delete c k) k = none := by
  induction c with
  | nil => simp [Cache.delete, Cache.load]
  | cons p t ih =>
    by_cases h : p.1 = k
    · simp [Cache.delete, h, ih]
    · simp [Cache.delete, Cache.load, h, ih]

theorem GenericStore.Store_snd {α : Type} (c : Cache α) (k : String) (v : α) :
    (GenericStore.Store c k v).2 = Cache.store c k v := by
  unfold GenericStore.Store
  cases Cache.load c k <;> rfl

/-! Theorems for the claims. -/

/-- C7: Store on an absent key reports existed false, a second Store on
the same key reports existed true, and the final cache holds the second
value. -/
theorem store_store_flags_and_lookup {α : Type} (c : Cache α) (k : String)
    (v1 v2 : α) (h : Cache.load c k = none) :
    (GenericStore.Store c k v1).1.2 = false
    ∧ (GenericStore.Store (GenericStore.Store c k v1).2 k v2).1.2 = true
    ∧ Cache.load (GenericStore.Store (GenericStore.Store c k v1).2 k v2).2 k
        = some v2 := by
  have h1 : Cache.load (Cache.store c k v1) k = some v1 :=
    Cache.load_store_self c k v1
  refine ⟨?_, ?_, ?_⟩
  · simp [GenericStore.Store, h]
  · simp [GenericStore.Store, h, h1]
  · simp [GenericStore.Store, h, h1, Cache.load_store_self]

/-- Witness for C7 at a concrete absent key. -/
theorem store_store_flags_and_lookup_witness :
    (GenericStore.Store ([] : Cache Nat) "/apisix/routes/1" 7).1.2 = false
    ∧ (GenericStore.Store (GenericStore.Store ([] : Cache Nat) "/apisix/routes/1" 7).2
        "/apisix/routes/1" 8).1.2 = true
    ∧ Cache.load (GenericStore.Store
        (GenericStore.Store ([] : Cache Nat) "/apisix/routes/1" 7).2
        "/apisix/routes/1" 8).2 "/apisix/routes/1" = some 8 :=
  store_store_flags_and_lookup [] "/apisix/routes/1" 7 8 rfl

/-- C8: after Store of v at k, Delete returns the removed v with existed
true and removes the entry; an immediately following Delete returns none
with existed false. -/
theorem delete_after_store {α : Type} (c : Cache α) (k : String) (v : α) :
    (GenericStore.Delete (GenericStore.Store c k v).2 k).1 = (some v, true)
    ∧ Cache.load (GenericStore.Delete (GenericStore.Store c k v).2 k).2 k = none
    ∧ (GenericStore.Delete (GenericStore.Delete (GenericStore.Store c k v).2 k).2 k).1
        = (none, false) := by
  have h1 : Cache.load (Cache.store c k v) k = some v :=
    Cache.load_store_self c k v
  have h2 : Cache.load (Cache.delete (Cache.store c k v) k) k = none :=
    Cache.load_delete_self (Cache.store c k v) k
  refine ⟨?_, ?_, ?_⟩
  · simp [GenericStore.Store_snd, GenericStore.Delete, h1]
  · simp [GenericStore.Store_snd, GenericStore.Delete, h1, h2]
  · simp [GenericStore.Store_snd, GenericStore.Delete, h1, h2]

theorem watchStep_inv (acc : StoreEvent) (ev : EtcdEvent)
    (h : ∀ it ∈ acc.items, it.value ≠ DirPlaceholder) :
    ∀ it ∈ (EtcdV3.watchStep acc ev).items, it.value ≠ DirPlaceholder := by
  intro it hit
  by_cases hv : ev.kv.value = DirPlaceholder
  · rw [EtcdV3.watchStep, if_pos hv] at hit
    exact h it hit
  · cases hty : ev.typ
    · simp [EtcdV3.watchStep, hv, hty, StoreEvent.Add, EventAdd, EventDelete] at hit
      rcases hit with h1 | h2
      · exact h it h1
      · rw [h2]
        exact hv
    · simp [EtcdV3.watchStep, hv, hty, StoreEvent.Add, EventAdd, EventDelete] at hit
      rcases hit with h1 | h2
      · exact h it h1
      · rw [h2]
        exact hv

theorem foldl_watchStep_inv (evs : List EtcdEvent) :
    ∀ acc : StoreEvent, (∀ it ∈ acc.items, it.value ≠ DirPlaceholder) →
      ∀ it ∈ (List.foldl EtcdV3.watchStep acc evs).items,
        it.value ≠ DirPlaceholder := by
  induction evs with
  | nil => intro acc h; simpa using h
  | cons ev rest ih =>
    intro acc h
    simpa using ih (EtcdV3.watchStep acc ev) (watchStep_inv acc ev h)

/-- C1 counterexample: a backend response whose directory placeholder
entry is NOT the first entry; EtcdV3.List returns it to the caller, so a
returned pair does carry the placeholder value. -/
theorem list_placeholder_surfaced_counterexample :
    EtcdV3.List
      (Except.ok (GetResponse.mk 2
        [KV.mk "/apisix/routes/1" "x", KV.mk "/apisix/routes" "init_dir"]))
      "/apisix/routes"
      = Except.ok [KV.mk "/apisix/routes/1" "x", KV.mk "/apisix/routes" "init_dir"]
    ∧ (KV.mk "/apisix/routes" "init_dir").value = DirPlaceholder := by
  constructor
  · simp [EtcdV3.List, DirPlaceholder]
  · rfl

/-- C1 amended: Watch never emits a placeholder item wherever it appears
in the raw batch; List never returns a placeholder pair provided every
entry after the first is not the placeholder (the convention that a
directory marker sorts first under its own prefix). -/
theorem list_watch_no_placeholder (r : GetResponse) (pfx : String)
    (w : WatchResponse) (m : Message)
    (htail : ∀ kv ∈ r.kvs.tail, kv.value ≠ DirPlaceholder)
    (hm : EtcdV3.List (Except.ok r) pfx = Except.ok m) :
    (∀ kv ∈ m, kv.value ≠ DirPlaceholder)
    ∧ (∀ it ∈ (EtcdV3.WatchBatch w).items, it.value ≠ DirPlaceholder) := by
  constructor
  · intro kv hkv
    unfold EtcdV3.List at hm
    by_cases hc : r.count = 0
    · simp [hc] at hm
    · cases hkvs : r.kvs with
      | nil => simp [hc, hkvs] at hm
      | cons kv0 rest =>
        have htail2 : ∀ x ∈ rest, x.value ≠ DirPlaceholder := by
          intro x hx
          exact htail x (by rw [hkvs]; simpa using hx)
        simp [hc, hkvs] at hm
        by_cases hv : kv0.value = DirPlaceholder
        · rw [if_pos hv] at hm
          rw [← hm] at hkv
          exact htail2 kv hkv
        · rw [if_neg hv] at hm
          rw [← hm] at hkv
          rcases List.mem_cons.mp hkv with h1 | h2
          · rw [h1]; exact hv
          · exact htail2 kv h2
  · intro it hit
    exact foldl_watchStep_inv w.events (NewStoreEvent w.canceled)
      (by simp [NewStoreEvent]) it hit

/-- Witness for the amended C1 at a concrete response whose placeholder
entry sorts first and at a concrete watch batch containing a placeholder
put. -/
theorem list_watch_no_placeholder_witness :
    (∀ kv ∈ [KV.mk "/apisix/routes/1" "v1"], kv.value ≠ DirPlaceholder)
    ∧ (∀ it ∈ (EtcdV3.WatchBatch (WatchResponse.mk false
        [EtcdEvent.mk EtcdEventType.put (KV.mk "/apisix/routes/2" "v2"),
         EtcdEvent.mk EtcdEventType.put (KV.mk "/apisix/routes" "init_dir")])).items,
        it.value ≠ DirPlaceholder) :=
  list_watch_no_placeholder
    (GetResponse.mk 2
      [KV.mk "/apisix/routes" "init_dir", KV.mk "/apisix/routes/1" "v1"])
    "/apisix/routes"
    (WatchResponse.mk false
      [EtcdEvent.mk EtcdEventType.put (KV.mk "/apisix/routes/2" "v2"),
       EtcdEvent.mk EtcdEventType.put (KV.mk "/apisix/routes" "init_dir")])
    [KV.mk "/apisix/routes/1" "v1"]
    (by decide)
    (by simp [EtcdV3.List, DirPlaceholder])

/-- C2: a key never written yields the not-found branch of Get, a prefix
with zero entries yields the not-found branch of List, and the not-found
error is a different value from every backend transport error. -/
theorem get_list_not_found (b : Backend) (k pfx : String)
    (hk : ∀ kv ∈ b, kv.key ≠ k)
    (hp : ∀ kv ∈ b, pfx.isPrefixOf kv.key = false) :
    EtcdV3.Get (Except.ok (rangeGet b k)) k
      = Except.error (EtcdErr.notFound "get" k)
    ∧ EtcdV3.List (Except.ok (rangePfx b pfx)) pfx
      = Except.error (EtcdErr.notFound "list" pfx)
    ∧ (∀ op key msg, EtcdErr.notFound op key ≠ EtcdErr.backend op key msg) := by
  have hf1 : b.filter (fun kv => kv.key == k) = [] := by
    simp [List.filter_eq_nil_iff]
    intro kv hkv
    exact hk kv hkv
  have hf2 : b.filter (fun kv => pfx.isPrefixOf kv.key) = [] := by
    simp only [List.filter_eq_nil_iff]
    intro kv hkv
    simp [hp kv hkv]
  refine ⟨?_, ?_, ?_⟩
  · simp [EtcdV3.Get, rangeGet, hf1]
  · simp [EtcdV3.List, rangePfx, hf2]
  · intro op key msg h
    exact EtcdErr.noConfusion h

/-- Witness for C2 on the concrete empty backend, where no key was ever
written. -/
theorem get_list_not_found_witness :
    EtcdV3.Get (Except.ok (rangeGet [] "/apisix/upstreams/1"))
        "/apisix/upstreams/1"
      = Except.error (EtcdErr.notFound "get" "/apisix/upstreams/1")
    ∧ EtcdV3.List (Except.ok (rangePfx [] "/apisix/services"))
        "/apisix/services"
      = Except.error (EtcdErr.notFound "list" "/apisix/services")
    ∧ (∀ op key msg, EtcdErr.notFound op key ≠ EtcdErr.backend op key msg) :=
  get_list_not_found [] "/apisix/upstreams/1" "/apisix/services"
    (by simp) (by simp)

/-- C9: Create and Update leave identical backend contents, succeed under
exactly the same condition, and on a working transport both perform the
unconditional upsert and report success. -/
theorem create_update_equiv (fail : Option String) (b : Backend) (k v : String) :
    (EtcdV3.Create fail b k v).2 = (EtcdV3.Update fail b k v).2
    ∧ ((EtcdV3.Create fail b k v).1.isOk = (EtcdV3.Update fail b k v).1.isOk)
    ∧ (fail = none →
        EtcdV3.Create fail b k v = (Except.ok (), Backend.put b k v)
        ∧ EtcdV3.Update fail b k v = (Except.ok (), Backend.put b k v)) := by
  cases fail <;> simp [EtcdV3.Create, EtcdV3.Update, Except.isOk, Except.toBool]

/-- Witness for C9 on a working transport at a concrete key. -/
theorem create_update_equiv_witness :
    EtcdV3.Create none [] "/apisix/routes/1" "v"
        = (Except.ok (), Backend.put [] "/apisix/routes/1" "v")
    ∧ EtcdV3.Update none [] "/apisix/routes/1" "v"
        = (Except.ok (), Backend.put [] "/apisix/routes/1" "v") :=
  (create_update_equiv none [] "/apisix/routes/1" "v").2.2 rfl

/-- C10: when the Count field agrees with the length of the Kvs sequence,
the indexing of Kvs at zero in Get and List is guarded by the zero-count
check, so the out-of-range outcome is unreachable. -/
theorem kvs_index_guarded (r : GetResponse) (k pfx : String)
    (h : r.count = r.kvs.length) :
    EtcdV3.Get (Except.ok r) k ≠ Except.error EtcdErr.outOfRange
    ∧ EtcdV3.List (Except.ok r) pfx ≠ Except.error EtcdErr.outOfRange := by
  by_cases hc : r.count = 0
  · constructor <;> simp [EtcdV3.Get, EtcdV3.List, hc]
  · have hne : r.kvs ≠ [] := by
      intro hnil
      rw [h, hnil] at hc
      exact hc rfl
    cases hkvs : r.kvs with
    | nil => exact absurd hkvs hne
    | cons kv0 rest =>
      constructor
      · simp [EtcdV3.Get, hc, hkvs]
      · simp [EtcdV3.List, hc, hkvs]

/-- Witness for C10 at a concrete consistent response. -/
theorem kvs_index_guarded_witness :
    EtcdV3.Get (Except.ok (GetResponse.mk 1 [KV.mk "/apisix/routes/1" "v"]))
        "/apisix/routes/1" ≠ Except.error EtcdErr.outOfRange
    ∧ EtcdV3.List (Except.ok (GetResponse.mk 1 [KV.mk "/apisix/routes/1" "v"]))
        "/apisix/routes" ≠ Except.error EtcdErr.outOfRange :=
  kvs_index_guarded (GetResponse.mk 1 [KV.mk "/apisix/routes/1" "v"])
    "/apisix/routes/1" "/apisix/routes" rfl

/-- C3: UpdateNodes rejects the empty key; fails not-found when the key is
not cached; fails with the capability error and no mutation when the
cached object lacks the NodesSetter capability; otherwise replaces the
node list, runs the Updating hook exactly when the BaseInfoSetter
capability is present, and, when encoding succeeds, sends the backend
exactly one Update call carrying the newly encoded object. -/
theorem updateNodes_branches (em jm : Obj → Except String String)
    (upd : String → String → Except String Unit)
    (c : Cache Obj) (key : String) (nodes : List Node) :
    (key = "" →
      GenericStore.UpdateNodes em jm upd c key nodes
        = UpdateNodesOut.mk (Except.error UpdateNodesErr.keyRequired) c [])
    ∧ (key ≠ "" → Cache.load c key = none →
      GenericStore.UpdateNodes em jm upd c key nodes
        = UpdateNodesOut.mk (Except.error (UpdateNodesErr.notFound key)) c [])
    ∧ (∀ o, key ≠ "" → Cache.load c key = some o → o.nodesSetter = false →
      GenericStore.UpdateNodes em jm upd c key nodes
        = UpdateNodesOut.mk (Except.error UpdateNodesErr.capability) c [])
    ∧ (∀ o bs, key ≠ "" → Cache.load c key = some o → o.nodesSetter = true →
      encodeObj em jm (o.afterSetNodes nodes) = Except.ok bs →
      (GenericStore.UpdateNodes em jm upd c key nodes).updateCalls = [(key, bs)]
      ∧ (GenericStore.UpdateNodes em jm upd c key nodes).cache
          = Cache.store c key (o.afterSetNodes nodes)
      ∧ (o.afterSetNodes nodes).nodes = nodes
      ∧ (o.baseInfoSetter = true → (o.afterSetNodes nodes).updated = true)
      ∧ (upd key bs = Except.ok () →
          (GenericStore.UpdateNodes em jm upd c key nodes).result = Except.ok ())) := by
  refine ⟨?_, ?_, ?_, ?_⟩
  · intro hk
    simp [GenericStore.UpdateNodes, hk]
  · intro hk hl
    simp [GenericStore.UpdateNodes, hk, hl]
  · intro o hk hl hn
    simp [GenericStore.UpdateNodes, hk, hl, hn]
  · intro o bs hk hl hn henc
    cases hu : upd key bs with
    | error e =>
      refine ⟨?_, ?_, ?_, ?_, ?_⟩
      · simp [GenericStore.UpdateNodes, hk, hl, hn, henc, hu]
      · simp [GenericStore.UpdateNodes, hk, hl, hn, henc, hu]
      · simp [Obj.afterSetNodes, Obj.SetNodes, Obj.markUpdated]
        split <;> rfl
      · intro hb
        simp [Obj.afterSetNodes, Obj.SetNodes, Obj.markUpdated, hb]
      · intro hok
        exact Except.noConfusion hok
    | ok u =>
      refine ⟨?_, ?_, ?_, ?_, ?_⟩
      · simp [GenericStore.UpdateNodes, hk, hl, hn, henc, hu]
      · simp [GenericStore.UpdateNodes, hk, hl, hn, henc, hu]
      · simp [Obj.afterSetNodes, Obj.SetNodes, Obj.markUpdated]
        split <;> rfl
      · intro hb
        simp [Obj.afterSetNodes, Obj.SetNodes, Obj.markUpdated, hb]
      · intro _
        simp [GenericStore.UpdateNodes, hk, hl, hn, henc, hu]

/-- Witness for C3, exercising each branch on concrete inputs: the empty
key, a missing key, a cached object without the NodesSetter capability,
and a full successful update. -/
theorem updateNodes_branches_witness :
    (GenericStore.UpdateNodes (fun _ => Except.ok "e") (fun _ => Except.ok "j")
        (fun _ _ => Except.ok ()) [] "" []
        = UpdateNodesOut.mk (Except.error UpdateNodesErr.keyRequired) [] [])
    ∧ (GenericStore.UpdateNodes (fun _ => Except.ok "e") (fun _ => Except.ok "j")
        (fun _ _ => Except.ok ()) [] "/apisix/routes/1" []
        = UpdateNodesOut.mk
            (Except.error (UpdateNodesErr.notFound "/apisix/routes/1")) [] [])
    ∧ (GenericStore.UpdateNodes (fun _ => Except.ok "e") (fun _ => Except.ok "j")
        (fun _ _ => Except.ok ())
        [("/apisix/routes/1", Obj.mk false [] false "" false false)]
        "/apisix/routes/1" []
        = UpdateNodesOut.mk (Except.error UpdateNodesErr.capability)
            [("/apisix/routes/1", Obj.mk false [] false "" false false)] [])
    ∧ ((GenericStore.UpdateNodes (fun _ => Except.ok "e") (fun _ => Except.ok "j")
        (fun _ _ => Except.ok ())
        [("/apisix/routes/1", Obj.mk true [] true "1" false false)]
        "/apisix/routes/1" [Node.mk "10.0.0.1" 80 1]).updateCalls
        = [("/apisix/routes/1", "j")]) := by
  refine ⟨?_, ?_, ?_, ?_⟩
  · exact (updateNodes_branches (fun _ => Except.ok "e") (fun _ => Except.ok "j")
      (fun _ _ => Except.ok ()) [] "" []).1 rfl
  · exact (updateNodes_branches (fun _ => Except.ok "e") (fun _ => Except.ok "j")
      (fun _ _ => Except.ok ()) [] "/apisix/routes/1" []).2.1 (by decide) rfl
  · exact (updateNodes_branches (fun _ => Except.ok "e") (fun _ => Except.ok "j")
      (fun _ _ => Except.ok ())
      [("/apisix/routes/1", Obj.mk false [] false "" false false)]
      "/apisix/routes/1" []).2.2.1 (Obj.mk false [] false "" false false)
      (by decide) (by simp [Cache.load]) rfl
  · exact ((updateNodes_branches (fun _ => Except.ok "e") (fun _ => Except.ok "j")
      (fun _ _ => Except.ok ())
      [("/apisix/routes/1", Obj.mk true [] true "1" false false)]
      "/apisix/routes/1" [Node.mk "10.0.0.1" 80 1]).2.2.2
      (Obj.mk true [] true "1" false false) "j"
      (by decide) (by simp [Cache.load]) rfl
      (by simp [encodeObj, Obj.afterSetNodes, Obj.SetNodes, Obj.markUpdated])).1

/-- C4: once the capability checks pass, a marshal failure or a backend
Update failure is returned to the caller while the cache already holds
the object with the new node list; no rollback happens. -/
theorem updateNodes_no_rollback (em jm : Obj → Except String String)
    (upd : String → String → Except String Unit)
    (c : Cache Obj) (key : String) (nodes : List Node) (o : Obj)
    (hk : key ≠ "") (hl : Cache.load c key = some o) (hn : o.nodesSetter = true) :
    (∀ e, encodeObj em jm (o.afterSetNodes nodes) = Except.error e →
      (GenericStore.UpdateNodes em jm upd c key nodes).result
          = Except.error (UpdateNodesErr.marshalFailed e)
      ∧ Cache.load (GenericStore.UpdateNodes em jm upd c key nodes).cache key
          = some (o.afterSetNodes nodes))
    ∧ (∀ bs e, encodeObj em jm (o.afterSetNodes nodes) = Except.ok bs →
      upd key bs = Except.error e →
      (GenericStore.UpdateNodes em jm upd c key nodes).result
          = Except.error (UpdateNodesErr.backendFailed e)
      ∧ Cache.load (GenericStore.UpdateNodes em jm upd c key nodes).cache key
          = some (o.afterSetNodes nodes))
    ∧ (o.afterSetNodes nodes).nodes = nodes := by
  refine ⟨?_, ?_, ?_⟩
  · intro e henc
    constructor
    · simp [GenericStore.UpdateNodes, hk, hl, hn, henc]
    · simp [GenericStore.UpdateNodes, hk, hl, hn, henc, Cache.load_store_self]
  · intro bs e henc hu
    constructor
    · simp [GenericStore.UpdateNodes, hk, hl, hn, henc, hu]
    · simp [GenericStore.UpdateNodes, hk, hl, hn, henc, hu, Cache.load_store_self]
  · simp [Obj.afterSetNodes, Obj.SetNodes, Obj.markUpdated]
    split <;> rfl

/-- Witness for C4 at a concrete cached object, a failing marshaller and a
failing backend. -/
theorem updateNodes_no_rollback_witness :
    ((GenericStore.UpdateNodes (fun _ => Except.ok "e")
        (fun _ => Except.error "marshal boom") (fun _ _ => Except.error "down")
        [("/apisix/routes/1", Obj.mk true [] false "" false false)]
        "/apisix/routes/1" [Node.mk "10.0.0.1" 80 1]).result
        = Except.error (UpdateNodesErr.marshalFailed "marshal boom"))
    ∧ Cache.load (GenericStore.UpdateNodes (fun _ => Except.ok "e")
        (fun _ => Except.error "marshal boom") (fun _ _ => Except.error "down")
        [("/apisix/routes/1", Obj.mk true [] false "" false false)]
        "/apisix/routes/1" [Node.mk "10.0.0.1" 80 1]).cache "/apisix/routes/1"
        = some ((Obj.mk true [] false "" false false).afterSetNodes
            [Node.mk "10.0.0.1" 80 1]) :=
  (updateNodes_no_rollback (fun _ => Except.ok "e")
    (fun _ => Except.error "marshal boom") (fun _ _ => Except.error "down")
    [("/apisix/routes/1", Obj.mk true [] false "" false false)]
    "/apisix/routes/1" [Node.mk "10.0.0.1" 80 1]
    (Obj.mk true [] false "" false false)
    (by decide) (by simp [Cache.load]) rfl).1 "marshal boom"
    (by simp [encodeObj, Obj.afterSetNodes, Obj.SetNodes])

theorem listLoop_all_ok {α : Type} (decode : String → String → Except String α)
    (filt : Option (α → Bool)) :
    ∀ (l : Message) (c : Cache α) (acc : List α),
      (∀ p ∈ l, ∃ o, decode p.value p.key = Except.ok o) →
      GenericStore.listLoop decode filt l c acc
        = (Except.ok (acc ++ l.filterMap (fun kv =>
            match decode kv.value kv.key with
            | Except.ok o => if acceptFilter filt o then some o else none
            | Except.error _ => none)),
          l.foldl (fun cc kv =>
            match decode kv.value kv.key with
            | Except.ok o =>
              if acceptFilter filt o then (GenericStore.Store cc kv.key o).2 else cc
            | Except.error _ => cc) c) := by
  intro l
  induction l with
  | nil =>
    intro c acc h
    simp [GenericStore.listLoop]
  | cons kv rest ih =>
    intro c acc h
    obtain ⟨o, ho⟩ := h kv (List.mem_cons_self kv rest)
    have hrest : ∀ p ∈ rest, ∃ o2, decode p.value p.key = Except.ok o2 :=
      fun p hp => h p (List.mem_cons_of_mem kv hp)
    by_cases hf : acceptFilter filt o = true
    · simp [GenericStore.listLoop, ho, hf, ih _ _ hrest]
    · simp [GenericStore.listLoop, ho, hf, ih _ _ hrest]

theorem listLoop_decode_error {α : Type} (decode : String → String → Except String α)
    (filt : Option (α → Bool)) (kv : KV) (e : String)
    (hkv : decode kv.value kv.key = Except.error e) :
    ∀ (pre post : Message) (c : Cache α) (acc : List α),
      (∀ p ∈ pre, ∃ o, decode p.value p.key = Except.ok o) →
      GenericStore.listLoop decode filt (pre ++ kv :: post) c acc
        = (Except.error e,
          pre.foldl (fun cc q =>
            match decode q.value q.key with
            | Except.ok o =>
              if acceptFilter filt o then (GenericStore.Store cc q.key o).2 else cc
            | Except.error _ => cc) c) := by
  intro pre
  induction pre with
  | nil =>
    intro post c acc h
    simp [GenericStore.listLoop, hkv]
  | cons q rest ih =>
    intro post c acc h
    obtain ⟨o, ho⟩ := h q (List.mem_cons_self q rest)
    have hrest : ∀ p ∈ rest, ∃ o2, decode p.value p.key = Except.ok o2 :=
      fun p hp => h p (List.mem_cons_of_mem q hp)
    by_cases hf : acceptFilter filt o = true
    · simp [GenericStore.listLoop, ho, hf, ih post _ _ hrest]
    · simp [GenericStore.listLoop, ho, hf, ih post _ _ hrest]

/-- C5: the entries of a backend listing are decoded in order; when every
entry decodes, the accepted objects come back in listing order and each is
stored in the cache under its original backend path; a decode failure at
any entry returns that error at once, keeps the stores made for the
earlier entries, and never processes a later entry. -/
theorem list_order_and_shortcircuit {α : Type}
    (decode : String → String → Except String α) (filt : Option (α → Bool))
    (c : Cache α) :
    (∀ ret : Message, (∀ p ∈ ret, ∃ o, decode p.value p.key = Except.ok o) →
      GenericStore.List decode filt (Except.ok ret) c
        = (Except.ok (ret.filterMap (fun kv =>
            match decode kv.value kv.key with
            | Except.ok o => if acceptFilter filt o then some o else none
            | Except.error _ => none)),
          ret.foldl (fun cc kv =>
            match decode kv.value kv.key with
            | Except.ok o =>
              if acceptFilter filt o then (GenericStore.Store cc kv.key o).2 else cc
            | Except.error _ => cc) c))
    ∧ (∀ (pre post : Message) (kv : KV) (e : String),
      (∀ p ∈ pre, ∃ o, decode p.value p.key = Except.ok o) →
      decode kv.value kv.key = Except.error e →
      GenericStore.List decode filt (Except.ok (pre ++ kv :: post)) c
        = (Except.error e,
          pre.foldl (fun cc q =>
            match decode q.value q.key with
            | Except.ok o =>
              if acceptFilter filt o then (GenericStore.Store cc q.key o).2 else cc
            | Except.error _ => cc) c)) := by
  constructor
  · intro ret h
    simpa [GenericStore.List] using listLoop_all_ok decode filt ret c [] h
  · intro pre post kv e h hkv
    simpa [GenericStore.List] using
      listLoop_decode_error decode filt kv e hkv pre post c [] h

/-- Witness for C5: an always-succeeding decoder on a two-entry listing,
and an always-failing decoder hit at the first entry of a listing with a
later entry, on concrete caches. -/
theorem list_order_and_shortcircuit_witness :
    GenericStore.List (fun v _ => Except.ok v) none
        (Except.ok [KV.mk "/apisix/routes/1" "a", KV.mk "/apisix/routes/2" "b"])
        ([] : Cache String)
      = (Except.ok ["a", "b"], [("/apisix/routes/1", "a"), ("/apisix/routes/2", "b")])
    ∧ GenericStore.List (fun v _ => Except.error v) none
        (Except.ok [KV.mk "/apisix/routes/1" "bad", KV.mk "/apisix/routes/2" "c"])
        ([] : Cache String)
      = (Except.error "bad", []) := by
  constructor
  · have h := (list_order_and_shortcircuit (fun v _ => Except.ok v) none
      ([] : Cache String)).1
      [KV.mk "/apisix/routes/1" "a", KV.mk "/apisix/routes/2" "b"]
      (fun p _ => ⟨p.value, rfl⟩)
    simpa [GenericStore.Store_snd, Cache.store, acceptFilter] using h
  · have h := (list_order_and_shortcircuit (fun v _ => Except.error v) none
      ([] : Cache String)).2
      [] [KV.mk "/apisix/routes/2" "c"] (KV.mk "/apisix/routes/1" "bad") "bad"
      (by simp) rfl
    simpa using h

/-- C6: after a successful decode, when the object has the BaseInfoSetter
capability and an empty identifier, StringToObjPtr assigns the identifier
FromatKey derives from the key exactly when that identifier is non-empty;
decoding the encoding of an object with no prior identifier therefore
yields the last meaningful segment of the path as identifier. -/
theorem stringToObjPtr_default_id (unmarshal : String → Except String Obj)
    (encode : Obj → String) (pfx str key : String) (o : Obj)
    (hdec : unmarshal str = Except.ok o)
    (hbi : o.baseInfoSetter = true) (hid : o.id = "") :
    ((FromatKey key pfx).2.2 ≠ "" →
      GenericStore.StringToObjPtr unmarshal pfx str key
        = Except.ok { o with id := (FromatKey key pfx).2.2 })
    ∧ ((FromatKey key pfx).2.2 = "" →
      GenericStore.StringToObjPtr unmarshal pfx str key = Except.ok o)
    ∧ (∀ o2 : Obj, unmarshal (encode o2) = Except.ok o2 →
        o2.baseInfoSetter = true → o2.id = "" →
        (FromatKey key pfx).2.2 = lastSegment key → lastSegment key ≠ "" →
        GenericStore.StringToObjPtr unmarshal pfx (encode o2) key
          = Except.ok { o2 with id := lastSegment key }) := by
  refine ⟨?_, ?_, ?_⟩
  · intro hne
    simp [GenericStore.StringToObjPtr, hdec, hbi, hid, hne]
  · intro heq
    simp [GenericStore.StringToObjPtr, hdec, hbi, hid, heq]
  · intro o2 hdec2 hbi2 hid2 hfk hne
    simp [GenericStore.StringToObjPtr, hdec2, hbi2, hid2, hfk, hne]

/-- Witness for C6 at a concrete decoder whose result has the capability
and no identifier, and the key of the concrete scenario of the spec. -/
theorem stringToObjPtr_default_id_witness :
    GenericStore.StringToObjPtr (fun _ => Except.ok (Obj.mk false [] true "" false false))
        "/apisix" "{}" "/apisix/routes/1"
      = Except.ok (Obj.mk false [] true "1" false false) := by
  have h := (stringToObjPtr_default_id
    (fun _ => Except.ok (Obj.mk false [] true "" false false))
    (fun _ => "{}") "/apisix" "{}" "/apisix/routes/1"
    (Obj.mk false [] true "" false false) rfl rfl rfl).1 (by decide)
  have hfk : (FromatKey "/apisix/routes/1" "/apisix").2.2 = "1" := by decide
  rw [hfk] at h
  exact h

end ApisixSeed
